import Mathlib

/-!
Verification of the ReliQuary cryptographic core (Rust modules
`reliquary_merkle` and `reliquary_encryptor`) against its specification.

The Merkle module (`src/rust_modules/merkle/src/lib.rs`) is embedded
directly, including a full executable SHA-256 over byte lists (bytes are
`Nat` values below 256; all 32-bit arithmetic is reduced `% 2^32`).

The encryptor module (`src/rust_modules/encryptor/src/lib.rs`) consists of
length checks, decoding and error mapping around primitives supplied by
external crates (`aes_gcm`, `pqcrypto_kyber`, `pqcrypto_falcon`). The code
of those crates is not part of this repository, so the embedding takes the
primitives as parameters and states the crates' documented contracts as
explicit hypotheses where a claim needs them.
-/

set_option maxRecDepth 4000

namespace Reliquary

/-- 2^32, the modulus for SHA-256 word arithmetic. -/
def w32 : Nat := 4294967296

/-- Right rotation of a 32-bit word by `n` bits. -/
def rotr (n x : Nat) : Nat := (x >>> n) ||| ((x <<< (32 - n)) % w32)

/-- SHA-256 choice function. -/
def shaCh (x y z : Nat) : Nat := (x &&& y) ^^^ ((x ^^^ 4294967295) &&& z)

/-- SHA-256 majority function. -/
def shaMaj (x y z : Nat) : Nat := (x &&& y) ^^^ (x &&& z) ^^^ (y &&& z)

/-- SHA-256 big sigma 0. -/
def bigSigma0 (x : Nat) : Nat := rotr 2 x ^^^ rotr 13 x ^^^ rotr 22 x

/-- SHA-256 big sigma 1. -/
def bigSigma1 (x : Nat) : Nat := rotr 6 x ^^^ rotr 11 x ^^^ rotr 25 x

/-- SHA-256 small sigma 0. -/
def smallSigma0 (x : Nat) : Nat := rotr 7 x ^^^ rotr 18 x ^^^ (x >>> 3)

/-- SHA-256 small sigma 1. -/
def smallSigma1 (x : Nat) : Nat := rotr 17 x ^^^ rotr 19 x ^^^ (x >>> 10)

/-- The 64 SHA-256 round constants (FIPS 180-4, written in decimal). -/
def shaK : List Nat :=
  [1116352408, 1899447441, 3049323471, 3921009573, 961987163, 1508970993,
   2453635748, 2870763221, 3624381080, 310598401, 607225278, 1426881987,
   1925078388, 2162078206, 2614888103, 3248222580, 3835390401, 4022224774,
   264347078, 604807628, 770255983, 1249150122, 1555081692, 1996064986,
   2554220882, 2821834349, 2952996808, 3210313671, 3336571891, 3584528711,
   113926993, 338241895, 666307205, 773529912, 1294757372, 1396182291,
   1695183700, 1986661051, 2177026350, 2456956037, 2730485921, 2820302411,
   3259730800, 3345764771, 3516065817, 3600352804, 4094571909, 275423344,
   430227734, 506948616, 659060556, 883997877, 958139571, 1322822218,
   1537002063, 1747873779, 1955562222, 2024104815, 2227730452, 2361852424,
   2428436474, 2756734187, 3204031479, 3329325298]

/-- The SHA-256 initial hash state (FIPS 180-4, written in decimal). -/
def shaH0 : List Nat :=
  [1779033703, 3144134277, 1013904242, 2773480762,
   1359893119, 2600822924, 528734635, 1541459225]

/-- Big-endian bytes of `v`, `n` bytes wide. -/
def toBytesBE (n v : Nat) : List Nat :=
  match n with
  | 0 => []
  | k + 1 => ((v >>> (8 * k)) % 256) :: toBytesBE k v

/-- SHA-256 padding: append `0x80`, zero bytes to 56 mod 64, then the
bit length as 8 big-endian bytes. -/
def padMessage (msg : List Nat) : List Nat :=
  msg ++ 0x80 :: List.replicate ((119 - msg.length % 64) % 64) 0 ++ toBytesBE 8 (8 * msg.length)

/-- Split a byte list into successive 64-byte chunks. -/
def chunks64 (l : List Nat) : List (List Nat) :=
  if h : l = [] then []
  else l.take 64 :: chunks64 (l.drop 64)
termination_by l.length
decreasing_by
  simp only [List.length_drop]
  have : 0 < l.length := List.length_pos.mpr h
  omega

/-- Group bytes four at a time into big-endian 32-bit words. -/
def bytesToWords : List Nat → List Nat
  | a :: b :: c :: d :: rest => (a * 16777216 + b * 65536 + c * 256 + d) :: bytesToWords rest
  | _ => []

/-- Extend the 16-word message schedule by `n` further words. -/
def extendSchedule : Nat → List Nat → List Nat
  | 0, ws => ws
  | n + 1, ws =>
      let t := ws.length
      extendSchedule n (ws ++ [(ws.getD (t - 16) 0 + smallSigma0 (ws.getD (t - 15) 0) +
        ws.getD (t - 7) 0 + smallSigma1 (ws.getD (t - 2) 0)) % w32])

/-- One SHA-256 compression round on the eight-word working state. -/
def shaRound (st : List Nat) (kw : Nat × Nat) : List Nat :=
  match st with
  | [a, b, c, d, e, f, g, h] =>
      let t1 := (h + bigSigma1 e + shaCh e f g + kw.1 + kw.2) % w32
      let t2 := (bigSigma0 a + shaMaj a b c) % w32
      [(t1 + t2) % w32, a, b, c, (d + t1) % w32, e, f, g]
  | other => other

/-- Compress one 64-byte chunk into the running hash state. -/
def compressChunk (h : List Nat) (chunk : List Nat) : List Nat :=
  let ws := extendSchedule 48 (bytesToWords chunk)
  let st := List.foldl shaRound h (shaK.zip ws)
  List.zipWith (fun x y => (x + y) % w32) h st

/-- SHA-256 of a byte list, as a 32-byte list. -/
def sha256 (msg : List Nat) : List Nat :=
  ((List.foldl compressChunk shaH0 (chunks64 (padMessage msg))).map (toBytesBE 4)).join

/-- Lexicographic order on byte lists, as Rust's derived `Ord` on `Vec<u8>`:
elementwise comparison, a strict prefix is smaller. -/
def bytesLt : List Nat → List Nat → Bool
  | [], [] => false
  | [], _ :: _ => true
  | _ :: _, [] => false
  | a :: as, b :: bs => a < b || (a == b && bytesLt as bs)

/-- One pass of `create_merkle_root`'s inner `while` loop: pair adjacent
hashes left-to-right, duplicating the last hash when the count is odd
(`right = left` in the source). -/
def combinePairs : List (List Nat) → List (List Nat)
  | [] => []
  | [x] => [sha256 (x ++ x)]
  | x :: y :: rest => sha256 (x ++ y) :: combinePairs rest

theorem combinePairs_length : ∀ l : List (List Nat), (combinePairs l).length = (l.length + 1) / 2
  | [] => rfl
  | [_] => by simp [combinePairs]
  | _ :: _ :: rest => by
      simp only [combinePairs, List.length_cons, combinePairs_length rest]
      omega

/-- The outer `while hashes.len() > 1` loop of `create_merkle_root`: reduce
levels until a single hash remains, then return it. -/
def buildRootLoop (hs : List (List Nat)) : List Nat :=
  match hs with
  | [] => []
  | [h] => h
  | a :: b :: rest => buildRootLoop (combinePairs (a :: b :: rest))
termination_by hs.length
decreasing_by
  simp only [combinePairs, List.length_cons, combinePairs_length]
  omega

/-- Embedding of `create_merkle_root` (merkle/src/lib.rs): empty input
returns the empty byte list; otherwise hash every block and fold levels. -/
def create_merkle_root (data_blocks : List (List Nat)) : List Nat :=
  if data_blocks = [] then []
  else buildRootLoop (data_blocks.map sha256)

/-- One step of `verify_merkle_proof`'s loop: concatenate the current hash
and the sibling in `Vec<u8>` order (the `current_hash < p_hash` branch) and
hash the result. -/
def proofStep (current p : List Nat) : List Nat :=
  if bytesLt current p then sha256 (current ++ p) else sha256 (p ++ current)

/-- Embedding of `verify_merkle_proof` (merkle/src/lib.rs): fold the proof
from the leaf hash and compare the final hash with `root`. The source
returns `PyResult<bool>` but never errs, so the embedding returns `Bool`. -/
def verify_merkle_proof (data_block : List Nat) (proof : List (List Nat)) (root : List Nat) : Bool :=
  List.foldl proofStep (sha256 data_block) proof == root

/-- The pair `(x, y)` sorted as raw byte strings, smaller first: the
combination order the spec prescribes for `verify_proof`. -/
def sortedPair (x y : List Nat) : List Nat × List Nat :=
  if bytesLt x y then (x, y) else (y, x)

/-- The spec's combining step: SHA-256 of the smaller-then-larger
concatenation of the two hashes. -/
def specCombine (h s : List Nat) : List Nat :=
  sha256 ((sortedPair h s).1 ++ (sortedPair h s).2)

/-- The running hash the spec describes for `verify_proof`: start from the
leaf hash of the block and absorb each sibling hash in proof order. -/
def specRunningHash (block : List Nat) (proof : List (List Nat)) : List Nat :=
  List.foldl specCombine (sha256 block) proof

/-- Embedding of `encrypt_data` (encryptor/src/lib.rs). The AES-256-GCM
cipher of the external `aes_gcm` crate is the parameter `enc` (key, nonce,
plaintext to ciphertext-with-tag, or an error); the fresh random nonce the
source draws from `OsRng` is the explicit parameter `freshNonce`. -/
def encrypt_data (enc : List Nat → List Nat → List Nat → Except String (List Nat))
    (freshNonce : List Nat) (data key_bytes : List Nat) :
    Except String (List Nat × List Nat) :=
  if key_bytes.length ≠ 32 then Except.error "Key must be 32 bytes for AES-256"
  else
    match enc key_bytes freshNonce data with
    | Except.ok ct => Except.ok (ct, freshNonce)
    | Except.error e => Except.error ("Encryption error: " ++ e)

/-- Embedding of `encrypt_data_with_nonce` (encryptor/src/lib.rs): like
`encrypt_data` but the caller supplies the nonce, which is length-checked. -/
def encrypt_data_with_nonce (enc : List Nat → List Nat → List Nat → Except String (List Nat))
    (data key_bytes nonce_bytes : List Nat) : Except String (List Nat) :=
  if key_bytes.length ≠ 32 then Except.error "Key must be 32 bytes"
  else if nonce_bytes.length ≠ 12 then Except.error "Nonce must be 12 bytes"
  else
    match enc key_bytes nonce_bytes data with
    | Except.ok ct => Except.ok ct
    | Except.error e => Except.error ("Encryption error: " ++ e)

/-- Embedding of `decrypt_data` (encryptor/src/lib.rs). The crate's AEAD
decryption is the parameter `dec`; it returns `none` exactly when the
crate's `decrypt` errs (authentication failure). -/
def decrypt_data (dec : List Nat → List Nat → List Nat → Option (List Nat))
    (ciphertext_with_tag nonce key_bytes : List Nat) : Except String (List Nat) :=
  if key_bytes.length ≠ 32 then Except.error "Key must be 32 bytes"
  else if nonce.length ≠ 12 then Except.error "Nonce must be 12 bytes"
  else
    match dec key_bytes nonce ciphertext_with_tag with
    | some plaintext => Except.ok plaintext
    | none => Except.error "Decryption failed"

/-- Embedding of `decrypt_data_with_nonce` (encryptor/src/lib.rs): a
wrapper that forwards to `decrypt_data`, swapping the key and nonce
parameter positions. -/
def decrypt_data_with_nonce (dec : List Nat → List Nat → List Nat → Option (List Nat))
    (ciphertext_with_tag key_bytes nonce_bytes : List Nat) : Except String (List Nat) :=
  decrypt_data dec ciphertext_with_tag nonce_bytes key_bytes

/-- The interface of the external `pqcrypto_kyber::kyber1024` crate as the
encryptor uses it: byte decoding of keys and ciphertexts, encapsulation,
decapsulation, and byte serialisation of shared secrets and ciphertexts. -/
structure KyberScheme (PK SK CT SS : Type) where
  pkFromBytes : List Nat → Except String PK
  skFromBytes : List Nat → Except String SK
  ctFromBytes : List Nat → Except String CT
  encapsulate : PK → SS × CT
  decapsulate : CT → SK → SS
  ssToBytes : SS → List Nat
  ctToBytes : CT → List Nat

/-- Embedding of `encapsulate_kyber` (encryptor/src/lib.rs): length check,
decode, encapsulate, serialise. -/
def encapsulate_kyber {PK SK CT SS : Type} (S : KyberScheme PK SK CT SS)
    (pk_bytes : List Nat) : Except String (List Nat × List Nat) :=
  if pk_bytes.length ≠ 1568 then
    Except.error ("Invalid public key length. Expected 1568, got " ++ toString pk_bytes.length)
  else
    match S.pkFromBytes pk_bytes with
    | Except.error e => Except.error ("Invalid public key: " ++ e)
    | Except.ok pk =>
        let r := S.encapsulate pk
        Except.ok (S.ssToBytes r.1, S.ctToBytes r.2)

/-- Embedding of `decapsulate_kyber` (encryptor/src/lib.rs): two length
checks, two decodes, decapsulate, serialise. -/
def decapsulate_kyber {PK SK CT SS : Type} (S : KyberScheme PK SK CT SS)
    (ct_bytes sk_bytes : List Nat) : Except String (List Nat) :=
  if ct_bytes.length ≠ 1568 then
    Except.error ("Invalid ciphertext length. Expected 1568, got " ++ toString ct_bytes.length)
  else if sk_bytes.length ≠ 3168 then
    Except.error ("Invalid secret key length. Expected 3168, got " ++ toString sk_bytes.length)
  else
    match S.ctFromBytes ct_bytes with
    | Except.error e => Except.error ("Invalid ciphertext: " ++ e)
    | Except.ok ct =>
        match S.skFromBytes sk_bytes with
        | Except.error e => Except.error ("Invalid secret key: " ++ e)
        | Except.ok sk => Except.ok (S.ssToBytes (S.decapsulate ct sk))

/-- The interface of the external `pqcrypto_falcon::falcon1024` crate as
the encryptor uses it: byte decoding, signing into a signed message,
serialisation, and `open`, which recovers the message or fails. -/
structure FalconScheme (PK SK SM : Type) where
  pkFromBytes : List Nat → Except String PK
  skFromBytes : List Nat → Except String SK
  smFromBytes : List Nat → Except String SM
  sign : List Nat → SK → SM
  smToBytes : SM → List Nat
  openSigned : SM → PK → Option (List Nat)

/-- Embedding of `sign_falcon` (encryptor/src/lib.rs): length check,
decode, sign, serialise. -/
def sign_falcon {PK SK SM : Type} (S : FalconScheme PK SK SM)
    (msg sk_bytes : List Nat) : Except String (List Nat) :=
  if sk_bytes.length ≠ 2305 then
    Except.error ("Invalid secret key length. Expected 2305, got " ++ toString sk_bytes.length)
  else
    match S.skFromBytes sk_bytes with
    | Except.error e => Except.error ("Invalid secret key: " ++ e)
    | Except.ok sk => Except.ok (S.smToBytes (S.sign msg sk))

/-- Embedding of `verify_falcon` (encryptor/src/lib.rs): length check,
decode public key and signed message (errors), then `open`; a failed open
or a recovered message different from `msg` yields `Ok(false)`. -/
def verify_falcon {PK SK SM : Type} (S : FalconScheme PK SK SM)
    (msg sig_bytes pk_bytes : List Nat) : Except String Bool :=
  if pk_bytes.length ≠ 1793 then
    Except.error ("Invalid public key length. Expected 1793, got " ++ toString pk_bytes.length)
  else
    match S.pkFromBytes pk_bytes with
    | Except.error e => Except.error ("Invalid public key: " ++ e)
    | Except.ok pk =>
        match S.smFromBytes sig_bytes with
        | Except.error e => Except.error ("Invalid signature: " ++ e)
        | Except.ok sm =>
            match S.openSigned sm pk with
            | some recovered => Except.ok (recovered == msg)
            | none => Except.ok false

/-- Trivial stand-in for the crate's AEAD encryption, used to instantiate
the parametrised theorems at concrete values. -/
def trivialAeadEnc : List Nat → List Nat → List Nat → Except String (List Nat) :=
  fun _ _ d => Except.ok d

/-- Trivial stand-in for the crate's AEAD decryption, inverse of
`trivialAeadEnc`. -/
def trivialAeadDec : List Nat → List Nat → List Nat → Option (List Nat) :=
  fun _ _ c => some c

/-- Trivial Kyber instance over `Unit` carriers, serialising ciphertexts to
1568 zero bytes, used to instantiate the parametrised theorems. -/
def trivialKyber : KyberScheme Unit Unit Unit Unit :=
  ⟨fun _ => Except.ok (), fun _ => Except.ok (), fun _ => Except.ok (),
   fun _ => ((), ()), fun _ _ => (), fun _ => [], fun _ => List.replicate 1568 0⟩

/-- Trivial Falcon instance over `Unit` carriers whose `open` always fails. -/
def trivialFalcon : FalconScheme Unit Unit Unit :=
  ⟨fun _ => Except.ok (), fun _ => Except.ok (), fun _ => Except.ok (),
   fun _ _ => (), fun _ => [], fun _ _ => none⟩

/-- Falcon instance over `Unit` carriers whose `open` always recovers the
message `[1]`. -/
def falconOpenOne : FalconScheme Unit Unit Unit :=
  ⟨fun _ => Except.ok (), fun _ => Except.ok (), fun _ => Except.ok (),
   fun _ _ => (), fun _ => [], fun _ _ => some [1]⟩

theorem shaRound_length (st : List Nat) (kw : Nat × Nat) : (shaRound st kw).length = st.length := by
  unfold shaRound
  rcases st with _ | ⟨a, _ | ⟨b, _ | ⟨c, _ | ⟨d, _ | ⟨e, _ | ⟨f, _ | ⟨g, _ | ⟨h, _ | ⟨i, t⟩⟩⟩⟩⟩⟩⟩⟩⟩ <;> rfl

theorem foldl_shaRound_length (ps : List (Nat × Nat)) :
    ∀ st : List Nat, (List.foldl shaRound st ps).length = st.length := by
  induction ps with
  | nil => intro st; rfl
  | cons p ps ih => intro st; rw [List.foldl_cons, ih, shaRound_length]

theorem compressChunk_length (h chunk : List Nat) : (compressChunk h chunk).length = h.length := by
  unfold compressChunk
  rw [List.length_zipWith, foldl_shaRound_length]
  omega

theorem foldl_compressChunk_length (cs : List (List Nat)) :
    ∀ h : List Nat, (List.foldl compressChunk h cs).length = h.length := by
  induction cs with
  | nil => intro h; rfl
  | cons c cs ih => intro h; rw [List.foldl_cons, ih, compressChunk_length]

theorem toBytesBE_length (n : Nat) : ∀ v : Nat, (toBytesBE n v).length = n := by
  induction n with
  | zero => intro v; rfl
  | succ k ih => intro v; simp [toBytesBE, ih]

theorem join_map_toBytesBE_length (l : List Nat) :
    ((l.map (toBytesBE 4)).join).length = 4 * l.length := by
  induction l with
  | nil => rfl
  | cons x xs ih => simp [List.join, toBytesBE_length, ih]; omega

/-- Every SHA-256 digest of the embedding is exactly 32 bytes. -/
theorem sha256_length (msg : List Nat) : (sha256 msg).length = 32 := by
  unfold sha256
  rw [join_map_toBytesBE_length, foldl_compressChunk_length]
  rfl

theorem proofStep_length (current p : List Nat) : (proofStep current p).length = 32 := by
  unfold proofStep
  split <;> exact sha256_length _

/-- The running hash of `verify_merkle_proof` is always 32 bytes. -/
theorem runningHash_length (proof : List (List Nat)) :
    ∀ h : List Nat, h.length = 32 → (List.foldl proofStep h proof).length = 32 := by
  induction proof with
  | nil => intro h hh; simpa using hh
  | cons p ps ih => intro h _; rw [List.foldl_cons]; exact ih _ (proofStep_length h p)

/-- The spec's combining step and the code's loop body agree. -/
theorem specCombine_eq_proofStep : specCombine = proofStep := by
  funext h s
  unfold specCombine sortedPair proofStep
  split <;> rfl

/-- C1: `verify_merkle_proof B P R` computes a running hash that starts at
SHA-256 of `B` and absorbs each sibling hash of `P` in order by hashing the
smaller-then-larger concatenation of the current hash and the sibling, and
it returns `true` if and only if the final running hash equals `R`. -/
theorem claim1_verify_proof_running_hash (B : List Nat) (P : List (List Nat)) (R : List Nat) :
    verify_merkle_proof B P R = true ↔ specRunningHash B P = R := by
  unfold verify_merkle_proof specRunningHash
  rw [specCombine_eq_proofStep]
  exact beq_iff_eq

/-- C2: on the two data blocks `b"a" = [97]` and `b"b" = [98]`,
`create_merkle_root` returns SHA-256 of the concatenation of the two leaf
hashes in positional left-to-right order. -/
theorem claim2_two_block_root :
    create_merkle_root [[97], [98]] = sha256 (sha256 [97] ++ sha256 [98]) := by
  simp [create_merkle_root, buildRootLoop, combinePairs]

/-- C3: on three blocks `[A, B, C]`, the level above the leaves pairs
`(sha256 A, sha256 B)` and pairs `sha256 C` with itself, and the root is
the hash of the concatenation of those two internal hashes. -/
theorem claim3_odd_leaf_duplication (A B C : List Nat) :
    combinePairs [sha256 A, sha256 B, sha256 C] =
      [sha256 (sha256 A ++ sha256 B), sha256 (sha256 C ++ sha256 C)] ∧
    create_merkle_root [A, B, C] =
      sha256 (sha256 (sha256 A ++ sha256 B) ++ sha256 (sha256 C ++ sha256 C)) := by
  constructor
  · simp [combinePairs]
  · simp [create_merkle_root, buildRootLoop, combinePairs]

/-- C8: `create_merkle_root` on the empty block list returns the empty byte
sequence, the defined sentinel, and does not err. -/
theorem claim8_empty_root : create_merkle_root [] = [] := by
  simp [create_merkle_root]

/-- C9 (amended): `verify_merkle_proof` performs no length validation and
never raises an `InvalidLength` error; it folds over whatever bytes it is
given and returns a boolean. Since the running hash is always a 32-byte
SHA-256 digest, any root that is not exactly 32 bytes makes it return
`false`. -/
theorem claim9_no_length_validation (b root : List Nat) (proof : List (List Nat))
    (hroot : root.length ≠ 32) :
    verify_merkle_proof b proof root = false := by
  unfold verify_merkle_proof
  rw [beq_eq_false_iff_ne]
  intro he
  exact hroot (he ▸ runningHash_length proof (sha256 b) (sha256_length b))

/-- Witness for C9's amended theorem at a concrete wrong-length root. -/
theorem claim9_no_length_validation_witness :
    ([2] : List Nat).length ≠ 32 ∧ verify_merkle_proof [0] [[1]] [2] = false :=
  ⟨by decide, claim9_no_length_validation [0] [2] [[1]] (by decide)⟩

/-- Counterexample to C9 as stated: called with a one-byte sibling hash
`[4]` and a one-byte root `[5]`, `verify_merkle_proof` does not reject the
input with an `InvalidLength` error (its result type carries no error at
all, mirroring the source's infallible `PyResult<bool>`); it computes over
the wrong-length values and returns the boolean `false`. -/
theorem claim9_counterexample : verify_merkle_proof [3] [[4]] [5] = false := by
  unfold verify_merkle_proof
  rw [beq_eq_false_iff_ne]
  intro he
  have h32 := runningHash_length [[4]] (sha256 [3]) (sha256_length [3])
  rw [he] at h32
  exact absurd h32 (by decide)

/-- C10: `decrypt_data_with_nonce` forwards to `decrypt_data` with the key
and nonce positions swapped and adds no behaviour of its own: both return
the identical result on all inputs. -/
theorem claim10_decrypt_wrapper (dec : List Nat → List Nat → List Nat → Option (List Nat))
    (C K N : List Nat) :
    decrypt_data_with_nonce dec C K N = decrypt_data dec C N K := rfl

/-- C4: every cipher, KEM and signature operation checks its fixed-length
inputs first and fails with the documented length error on any wrong-length
input, before any cryptographic work (the error does not depend on the
crate primitives, which are universally quantified here). -/
theorem claim4_length_validation :
    (∀ (enc : List Nat → List Nat → List Nat → Except String (List Nat))
       (freshNonce data key : List Nat), key.length ≠ 32 →
      encrypt_data enc freshNonce data key = Except.error "Key must be 32 bytes for AES-256") ∧
    (∀ (enc : List Nat → List Nat → List Nat → Except String (List Nat))
       (data key nonce : List Nat), key.length ≠ 32 →
      encrypt_data_with_nonce enc data key nonce = Except.error "Key must be 32 bytes") ∧
    (∀ (enc : List Nat → List Nat → List Nat → Except String (List Nat))
       (data key nonce : List Nat), key.length = 32 → nonce.length ≠ 12 →
      encrypt_data_with_nonce enc data key nonce = Except.error "Nonce must be 12 bytes") ∧
    (∀ (dec : List Nat → List Nat → List Nat → Option (List Nat))
       (ct nonce key : List Nat), key.length ≠ 32 →
      decrypt_data dec ct nonce key = Except.error "Key must be 32 bytes") ∧
    (∀ (dec : List Nat → List Nat → List Nat → Option (List Nat))
       (ct nonce key : List Nat), key.length = 32 → nonce.length ≠ 12 →
      decrypt_data dec ct nonce key = Except.error "Nonce must be 12 bytes") ∧
    (∀ (PK SK CT SS : Type) (S : KyberScheme PK SK CT SS) (pk : List Nat), pk.length ≠ 1568 →
      encapsulate_kyber S pk =
        Except.error ("Invalid public key length. Expected 1568, got " ++ toString pk.length)) ∧
    (∀ (PK SK CT SS : Type) (S : KyberScheme PK SK CT SS) (ct sk : List Nat), ct.length ≠ 1568 →
      decapsulate_kyber S ct sk =
        Except.error ("Invalid ciphertext length. Expected 1568, got " ++ toString ct.length)) ∧
    (∀ (PK SK CT SS : Type) (S : KyberScheme PK SK CT SS) (ct sk : List Nat),
       ct.length = 1568 → sk.length ≠ 3168 →
      decapsulate_kyber S ct sk =
        Except.error ("Invalid secret key length. Expected 3168, got " ++ toString sk.length)) ∧
    (∀ (PK SK SM : Type) (S : FalconScheme PK SK SM) (msg sk : List Nat), sk.length ≠ 2305 →
      sign_falcon S msg sk =
        Except.error ("Invalid secret key length. Expected 2305, got " ++ toString sk.length)) ∧
    (∀ (PK SK SM : Type) (S : FalconScheme PK SK SM) (msg sig pk : List Nat), pk.length ≠ 1793 →
      verify_falcon S msg sig pk =
        Except.error ("Invalid public key length. Expected 1793, got " ++ toString pk.length)) := by
  refine ⟨?_, ?_, ?_, ?_, ?_, ?_, ?_, ?_, ?_, ?_⟩
  · intro enc n d k h; simp [encrypt_data, h]
  · intro enc d k n h; simp [encrypt_data_with_nonce, h]
  · intro enc d k n hk hn; simp [encrypt_data_with_nonce, hk, hn]
  · intro dec c n k h; simp [decrypt_data, h]
  · intro dec c n k hk hn; simp [decrypt_data, hk, hn]
  · intro PK SK CT SS S pk h; simp [encapsulate_kyber, h]
  · intro PK SK CT SS S ct sk h; simp [decapsulate_kyber, h]
  · intro PK SK CT SS S ct sk hc hs; simp [decapsulate_kyber, hc, hs]
  · intro PK SK SM S msg sk h; simp [sign_falcon, h]
  · intro PK SK SM S msg sig pk h; simp [verify_falcon, h]

/-- Witness for C4 at concrete wrong-length inputs (empty byte lists and
one-element lists against every required length). -/
theorem claim4_length_validation_witness :
    encrypt_data trivialAeadEnc [] [] [1] = Except.error "Key must be 32 bytes for AES-256" ∧
    encrypt_data_with_nonce trivialAeadEnc [] [1] [] = Except.error "Key must be 32 bytes" ∧
    encrypt_data_with_nonce trivialAeadEnc [] (List.replicate 32 0) [1] =
      Except.error "Nonce must be 12 bytes" ∧
    decrypt_data trivialAeadDec [] [] [1] = Except.error "Key must be 32 bytes" ∧
    decrypt_data trivialAeadDec [] [1] (List.replicate 32 0) =
      Except.error "Nonce must be 12 bytes" ∧
    encapsulate_kyber trivialKyber [1] =
      Except.error ("Invalid public key length. Expected 1568, got " ++ toString 1) ∧
    decapsulate_kyber trivialKyber [1] [] =
      Except.error ("Invalid ciphertext length. Expected 1568, got " ++ toString 1) ∧
    decapsulate_kyber trivialKyber (List.replicate 1568 0) [1] =
      Except.error ("Invalid secret key length. Expected 3168, got " ++ toString 1) ∧
    sign_falcon trivialFalcon [] [1] =
      Except.error ("Invalid secret key length. Expected 2305, got " ++ toString 1) ∧
    verify_falcon trivialFalcon [] [] [1] =
      Except.error ("Invalid public key length. Expected 1793, got " ++ toString 1) := by
  refine ⟨?_, ?_, ?_, ?_, ?_, ?_, ?_, ?_, ?_, ?_⟩
  · exact claim4_length_validation.1 trivialAeadEnc [] [] [1] (by decide)
  · exact claim4_length_validation.2.1 trivialAeadEnc [] [1] [] (by decide)
  · exact claim4_length_validation.2.2.1 trivialAeadEnc [] (List.replicate 32 0) [1]
      (by rw [List.length_replicate]) (by decide)
  · exact claim4_length_validation.2.2.2.1 trivialAeadDec [] [] [1] (by decide)
  · exact claim4_length_validation.2.2.2.2.1 trivialAeadDec [] [1] (List.replicate 32 0)
      (by rw [List.length_replicate]) (by decide)
  · exact claim4_length_validation.2.2.2.2.2.1 Unit Unit Unit Unit trivialKyber [1] (by decide)
  · exact claim4_length_validation.2.2.2.2.2.2.1 Unit Unit Unit Unit trivialKyber [1] []
      (by decide)
  · exact claim4_length_validation.2.2.2.2.2.2.2.1 Unit Unit Unit Unit trivialKyber
      (List.replicate 1568 0) [1] (by rw [List.length_replicate]) (by decide)
  · exact claim4_length_validation.2.2.2.2.2.2.2.2.1 Unit Unit Unit trivialFalcon [] [1]
      (by decide)
  · exact claim4_length_validation.2.2.2.2.2.2.2.2.2 Unit Unit Unit trivialFalcon [] [] [1]
      (by decide)

/-- C5: `verify_falcon` errs only on structurally malformed input; when the
public key has the right length and both the public key and the signed
message decode, it returns a boolean, and it returns `Ok false` (not an
error) when `open` fails to verify or when the recovered message differs
from the supplied message. -/
theorem claim5_verify_false_vs_error :
    ∀ (PK SK SM : Type) (S : FalconScheme PK SK SM) (msg sig pk : List Nat)
      (pkV : PK) (sm : SM),
      pk.length = 1793 →
      S.pkFromBytes pk = Except.ok pkV →
      S.smFromBytes sig = Except.ok sm →
      (∃ b : Bool, verify_falcon S msg sig pk = Except.ok b) ∧
      (S.openSigned sm pkV = none → verify_falcon S msg sig pk = Except.ok false) ∧
      (∀ recovered, S.openSigned sm pkV = some recovered → recovered ≠ msg →
        verify_falcon S msg sig pk = Except.ok false) := by
  intro PK SK SM S msg sig pk pkV sm hlen hpk hsm
  have hv : verify_falcon S msg sig pk =
      (match S.openSigned sm pkV with
       | some recovered => Except.ok (recovered == msg)
       | none => Except.ok false) := by
    unfold verify_falcon
    rw [if_neg (by simp [hlen]), hpk, hsm]
  refine ⟨?_, ?_, ?_⟩
  · cases h : S.openSigned sm pkV with
    | some r => exact ⟨r == msg, by rw [hv, h]⟩
    | none => exact ⟨false, by rw [hv, h]⟩
  · intro h; rw [hv, h]
  · intro r h hne; rw [hv, h]; simp [hne]

/-- Witness for C5: a well-formed call returns a boolean; a failed `open`
and a recovered-message mismatch both return `Ok false`. -/
theorem claim5_verify_false_vs_error_witness :
    (∃ b : Bool, verify_falcon trivialFalcon [] [] (List.replicate 1793 0) = Except.ok b) ∧
    verify_falcon trivialFalcon [] [] (List.replicate 1793 0) = Except.ok false ∧
    verify_falcon falconOpenOne [2] [] (List.replicate 1793 0) = Except.ok false := by
  refine ⟨?_, ?_, ?_⟩
  · exact (claim5_verify_false_vs_error Unit Unit Unit trivialFalcon [] []
      (List.replicate 1793 0) () () (by rw [List.length_replicate]) rfl rfl).1
  · exact (claim5_verify_false_vs_error Unit Unit Unit trivialFalcon [] []
      (List.replicate 1793 0) () () (by rw [List.length_replicate]) rfl rfl).2.1 rfl
  · exact (claim5_verify_false_vs_error Unit Unit Unit falconOpenOne [2] []
      (List.replicate 1793 0) () () (by rw [List.length_replicate]) rfl rfl).2.2 [1] rfl
      (by decide)

/-- C6: whenever `encrypt_data` succeeds, `decrypt_data` of its output
under the same key returns the original plaintext. The hypothesis is the
`aes_gcm` crate's AEAD correctness law; the 12-byte hypothesis on the
fresh nonce models the crate's `generate_nonce`, which always returns a
96-bit nonce. -/
theorem claim6_encrypt_decrypt_roundtrip :
    ∀ (enc : List Nat → List Nat → List Nat → Except String (List Nat))
      (dec : List Nat → List Nat → List Nat → Option (List Nat)),
      (∀ key nonce p ct, enc key nonce p = Except.ok ct → dec key nonce ct = some p) →
      ∀ (data key freshNonce : List Nat), freshNonce.length = 12 →
      ∀ ct n, encrypt_data enc freshNonce data key = Except.ok (ct, n) →
        decrypt_data dec ct n key = Except.ok data := by
  intro enc dec hlaw data key freshNonce hn ct n henc
  unfold encrypt_data at henc
  split at henc
  · exact absurd henc (by simp)
  case isFalse hk =>
    cases hec : enc key freshNonce data with
    | ok ct0 =>
        rw [hec] at henc
        simp only [Except.ok.injEq, Prod.mk.injEq] at henc
        obtain ⟨h1, h2⟩ := henc
        subst h1
        subst h2
        have hk32 : key.length = 32 := not_ne_iff.mp hk
        simp [decrypt_data, hk32, hn, hlaw key freshNonce data ct0 hec]
    | error e =>
        rw [hec] at henc
        exact absurd henc (by simp)

/-- Witness for C6 with the trivial AEAD at concrete plaintext `[5]`, the
all-zero 32-byte key and the all-zero 12-byte nonce. -/
theorem claim6_encrypt_decrypt_roundtrip_witness :
    (∀ key nonce p ct, trivialAeadEnc key nonce p = Except.ok ct →
      trivialAeadDec key nonce ct = some p) ∧
    (List.replicate 12 0).length = 12 ∧
    encrypt_data trivialAeadEnc (List.replicate 12 0) [5] (List.replicate 32 0) =
      Except.ok ([5], List.replicate 12 0) ∧
    decrypt_data trivialAeadDec [5] (List.replicate 12 0) (List.replicate 32 0) =
      Except.ok [5] := by
  have hlaw : ∀ key nonce p ct, trivialAeadEnc key nonce p = Except.ok ct →
      trivialAeadDec key nonce ct = some p := by
    intro key nonce p ct h
    simp only [trivialAeadEnc, Except.ok.injEq] at h
    subst h
    rfl
  have henc : encrypt_data trivialAeadEnc (List.replicate 12 0) [5] (List.replicate 32 0) =
      Except.ok ([5], List.replicate 12 0) := by
    unfold encrypt_data
    rw [if_neg (by rw [List.length_replicate]; exact fun h => h rfl)]
    rfl
  refine ⟨hlaw, by rw [List.length_replicate], henc, ?_⟩
  exact claim6_encrypt_decrypt_roundtrip trivialAeadEnc trivialAeadDec hlaw
    [5] (List.replicate 32 0) (List.replicate 12 0) (by rw [List.length_replicate])
    [5] (List.replicate 12 0) henc

/-- C7: for a generated keypair, if `encapsulate_kyber` returns a shared
secret and a ciphertext, then `decapsulate_kyber` on that ciphertext and
the matching secret key returns the same shared secret. The hypotheses
model the `pqcrypto_kyber` crate: byte lengths of generated keys and
serialised ciphertexts, `from_bytes` inverting `as_bytes`, and the KEM
agreement law for a matching keypair. -/
theorem claim7_kem_agreement :
    ∀ (PK SK CT SS : Type) (S : KyberScheme PK SK CT SS)
      (pkB skB : List Nat) (pkV : PK) (skV : SK),
      pkB.length = 1568 →
      skB.length = 3168 →
      S.pkFromBytes pkB = Except.ok pkV →
      S.skFromBytes skB = Except.ok skV →
      (∀ ct : CT, (S.ctToBytes ct).length = 1568) →
      (∀ ct : CT, S.ctFromBytes (S.ctToBytes ct) = Except.ok ct) →
      (∀ ss ct, S.encapsulate pkV = (ss, ct) → S.decapsulate ct skV = ss) →
      ∀ ssB ctB, encapsulate_kyber S pkB = Except.ok (ssB, ctB) →
        decapsulate_kyber S ctB skB = Except.ok ssB := by
  intro PK SK CT SS S pkB skB pkV skV hpkLen hskLen hpk hsk hctLen hctRound hagree ssB ctB henc
  unfold encapsulate_kyber at henc
  rw [if_neg (by simp [hpkLen]), hpk] at henc
  simp only [Except.ok.injEq, Prod.mk.injEq] at henc
  obtain ⟨h1, h2⟩ := henc
  subst h1
  subst h2
  unfold decapsulate_kyber
  rw [if_neg (by simp [hctLen]), if_neg (by simp [hskLen]), hctRound, hsk]
  show Except.ok (S.ssToBytes (S.decapsulate (S.encapsulate pkV).2 skV)) =
    Except.ok (S.ssToBytes (S.encapsulate pkV).1)
  rw [hagree (S.encapsulate pkV).1 (S.encapsulate pkV).2 rfl]

/-- Witness for C7 with the trivial Kyber scheme over `Unit` carriers. -/
theorem claim7_kem_agreement_witness :
    encapsulate_kyber trivialKyber (List.replicate 1568 0) =
      Except.ok ([], List.replicate 1568 0) ∧
    decapsulate_kyber trivialKyber (List.replicate 1568 0) (List.replicate 3168 0) =
      Except.ok [] := by
  have henc : encapsulate_kyber trivialKyber (List.replicate 1568 0) =
      Except.ok ([], List.replicate 1568 0) := by
    unfold encapsulate_kyber
    rw [if_neg (by rw [List.length_replicate]; exact fun h => h rfl)]
    rfl
  refine ⟨henc, ?_⟩
  exact claim7_kem_agreement Unit Unit Unit Unit trivialKyber
    (List.replicate 1568 0) (List.replicate 3168 0) () ()
    (by rw [List.length_replicate]) (by rw [List.length_replicate]) rfl rfl
    (fun ct => by show (List.replicate 1568 (0 : Nat)).length = 1568; rw [List.length_replicate])
    (fun _ => rfl) (fun ss ct _ => rfl)
    [] (List.replicate 1568 0) henc

end Reliquary
